import Mathlib

/-!
Verification of the session-persistence core (`WindowSettings`) and the
recent-files logic (`MainWindow._updateCurrentFile` /
`_updateRecentFileActions`) of `textEditorExample.py`, as a shallow
embedding in Lean 4.
-/

namespace TextEditorExample

/-- Opaque Python values flowing through the `saveState` / `restoreState`
hooks.  `emptyDict` models `dict()` (the default state and the argument
passed by `restore()`); `obj n` models an arbitrary picklable value;
`unpicklable n` models a value on which `pickle.dumps` raises. -/
inductive PyVal where
  | emptyDict : PyVal
  | obj : Nat → PyVal
  | unpicklable : Nat → PyVal
deriving DecidableEq, Repr

/-- Byte blobs stored under the "state" key.  `empty` is the empty
`QByteArray` (falsy in Python); `pickled v` is a well-formed pickle of
`v` (always non-empty, hence truthy); `corrupt n` is a non-empty blob
on which `pickle.loads` raises. -/
inductive Blob where
  | empty : Blob
  | pickled : PyVal → Blob
  | corrupt : Nat → Blob
deriving DecidableEq, Repr

/-- Python truthiness of a `QByteArray`: only the empty array is falsy. -/
def Blob.truthy : Blob → Bool
  | .empty => false
  | _ => true

/-- Model of `pickle.loads`: `none` means the call raises (it raises on
the empty blob with EOFError and on corrupt blobs). -/
def pickleLoads : Blob → Option PyVal
  | .pickled v => some v
  | _ => none

/-- Model of `pickle.dumps`: `none` means the call raises. -/
def pickleDumps : PyVal → Option Blob
  | .unpicklable _ => none
  | v => some (.pickled v)

/-- Default "state" value in `readSettings`: the literal
`QByteArray(chr40 dp0 dot chr41)`, which is the pickle of the empty dict. -/
def defaultStateBlob : Blob := .pickled .emptyDict

/-- The host window as seen by `WindowSettings`: geometry, duck-typed
presence of the two hooks, the value its `saveState()` returns, the last
value handed to its `restoreState(data)` hook, and whether `close()` has
been called.  The in-repo `MainWindow` has both hooks, returns the empty
dict from `saveState`, and its `restoreState` is a no-op on internal
data; we record the argument passed so theorems can speak about it. -/
structure Widget where
  size : Int × Int
  pos : Int × Int
  hasRestoreState : Bool
  hasSaveState : Bool
  saveStateResult : PyVal
  restoredWith : Option PyVal
  closed : Bool
deriving DecidableEq, Repr

/-- Model of `widget.resize(sz)`. -/
def Widget.resize (w : Widget) (sz : Int × Int) : Widget := { w with size := sz }

/-- Model of `widget.move(p)`. -/
def Widget.move (w : Widget) (p : Int × Int) : Widget := { w with pos := p }

/-- Model of calling `widget.restoreState(data)` (on a widget that has
the attribute): the hook receives `data`. -/
def Widget.restoreStateCall (w : Widget) (data : PyVal) : Widget :=
  { w with restoredWith := some data }

/-- Model of `widget.close()`. -/
def Widget.close (w : Widget) : Widget := { w with closed := true }

/-- The identity triple `(companyName, toolName, toolVersion)` held by a
`WindowSettings` instance. -/
structure SettingsKey where
  companyName : String
  toolName : String
  toolVersion : String
deriving DecidableEq, Repr

/-- The persisted record under one `(company, tool, version)` group:
keys "size", "pos" and "widgetState/state".  A missing key is `none`
(`QSettings.value` then returns the supplied default). -/
structure Record where
  size : Option (Int × Int)
  pos : Option (Int × Int)
  state : Option Blob
deriving DecidableEq, Repr

/-- Record of a group no key of which has ever been set. -/
def Record.blank : Record := ⟨none, none, none⟩

/-- The backing `QSettings` store: an association list from
`(companyName, toolName, toolVersion)` to the group's record. -/
def Store : Type := List ((String × String × String) × Record)

instance : DecidableEq Store := inferInstanceAs (DecidableEq (List _))

/-- Look up the record for a group, blank when absent. -/
def Store.find : Store → (String × String × String) → Record
  | [], _ => Record.blank
  | (k2, r) :: rest, k => if k2 = k then r else Store.find rest k

/-- Whether the store holds any record for this group key. -/
def Store.containsKey (st : Store) (k : String × String × String) : Bool :=
  st.any (fun e => e.1 = k)

/-- Write the record for a group (overwrite or append). -/
def Store.setRecord : Store → (String × String × String) → Record → Store
  | [], k, r => [(k, r)]
  | (k2, r2) :: rest, k, r =>
      if k2 = k then (k, r) :: rest else (k2, r2) :: Store.setRecord rest k r

/-- Model of `QSettings(company, tool).clear()`: every group of that
company/tool pair is deleted, regardless of version. -/
def Store.clearAll (st : Store) (company tool : String) : Store :=
  st.filter (fun e => !(e.1.1 = company && e.1.2.1 = tool))

/-- Outcome of `readSettings` / `writeSettings`: the boolean the method
returns and whether a traceback was printed (the error "log"). -/
structure OpReport where
  ok : Bool
  logged : Bool
deriving DecidableEq, Repr

/-- Shallow embedding of `WindowSettings.readSettings` (lines 75-104).
Applies stored-or-default geometry to the widget; if the widget has a
`restoreState` attribute, fetches the "state" blob (defaulting to the
pickle of the empty dict), and when it is truthy tries
`pickle.loads` + `restoreState`; a raise is caught, recorded in
`errors`, printed, and turns the result to false. -/
def readSettings (st : Store) (k : SettingsKey) (w : Widget) :
    Widget × OpReport :=
  let r := st.find (k.companyName, k.toolName, k.toolVersion)
  let w := w.resize (r.size.getD (400, 200))
  let w := w.move (r.pos.getD (200, 200))
  if w.hasRestoreState then
    let string := r.state.getD defaultStateBlob
    if string.truthy then
      match pickleLoads string with
      | some state => (w.restoreStateCall state, ⟨true, false⟩)
      | none => (w, ⟨false, true⟩)
    else (w, ⟨true, false⟩)
  else (w, ⟨true, false⟩)

/-- Shallow embedding of `WindowSettings.writeSettings` (lines 106-136).
Writes the widget's current size and pos into the group; if the widget
has a `saveState` attribute, tries `pickle.dumps(widget.saveState())`
and on success stores the blob under "widgetState/state"; a raise is
caught, logged, and turns the result to false, leaving any previously
stored state blob in place. -/
def writeSettings (st : Store) (k : SettingsKey) (w : Widget) :
    Store × OpReport :=
  let key := (k.companyName, k.toolName, k.toolVersion)
  let r := st.find key
  let r := { r with size := some w.size, pos := some w.pos }
  if w.hasSaveState then
    match pickleDumps w.saveStateResult with
    | some blob => (st.setRecord key { r with state := some blob }, ⟨true, false⟩)
    | none => (st.setRecord key r, ⟨false, true⟩)
  else (st.setRecord key r, ⟨true, false⟩)

/-- Shallow embedding of `WindowSettings.clearSettings` (lines 138-141):
`QSettings(companyName, toolName).clear()`. -/
def clearSettings (st : Store) (k : SettingsKey) : Store :=
  st.clearAll k.companyName k.toolName

/-- Shallow embedding of `WindowSettings.save` (lines 143-147):
`result = writeSettings(); widget.close(); return result`. -/
def save (st : Store) (k : SettingsKey) (w : Widget) :
    Store × Widget × Bool :=
  let (st2, rep) := writeSettings st k w
  (st2, w.close, rep.ok)

/-- Shallow embedding of `WindowSettings.restore` (lines 149-154).
The body runs `widget.restoreState(dict())` with no hasattr guard, then
`widget.close()`, then `clearSettings()`.  When the widget lacks the
attribute the first call raises AttributeError and nothing afterwards
runs: modelled by `none` with store and widget untouched. -/
def restore (st : Store) (k : SettingsKey) (w : Widget) :
    Option (Store × Widget) :=
  if w.hasRestoreState then
    let w := w.restoreStateCall .emptyDict
    let w := w.close
    some (clearSettings st k, w)
  else none

/-- Shallow embedding of `WindowSettings.cancel` (lines 156-158):
close, then re-read settings. -/
def cancel (st : Store) (k : SettingsKey) (w : Widget) : Widget × OpReport :=
  readSettings st k w.close

/-! Recent-files logic of `MainWindow` (lines 214-218, 289-294, 401-430). -/

/-- Model of `os.path.basename` on POSIX paths: the part after the
final slash. -/
def basename (p : String) : String :=
  ((p.splitOn "/").getLast?).getD ""

/-- One `QAction` of `recentFileActions`: its text, its data payload
(`None` until first set) and its visibility. -/
structure RAction where
  text : String
  data : Option String
  visible : Bool
deriving DecidableEq, Repr

/-- A freshly constructed recent-file action: `QAction(self)` followed
by `setVisible(False)` (lines 291-292): empty text, no data, hidden. -/
def RAction.fresh : RAction := ⟨"", none, false⟩

/-- The list-update core of `MainWindow._updateCurrentFile`
(lines 405-410): `while filePath in recentFiles: remove(filePath)`,
then `insert(0, filePath)`, then slice to `maxNumRecentFiles` when the
length exceeds it. -/
def recordOpened (recent : List String) (maxN : Nat) (path : String) :
    List String :=
  let recent := recent.filter (fun q => q ≠ path)
  let recent := path :: recent
  if recent.length > maxN then recent.take maxN else recent

/-- First loop of `_updateRecentFileActions` (lines 422-426): for each
index into `recentFiles`, overwrite that action's text (basename), data
(full path) and make it visible.  The source indexes
`recentFileActions[i]` directly; in every state the program reaches,
`recentFiles` is no longer than the action list, so the walk never runs
past it. -/
def applyShowLoop : List String → List RAction → List RAction
  | _, [] => []
  | [], as => as
  | f :: fs, _ :: as => ⟨basename f, some f, true⟩ :: applyShowLoop fs as

/-- Second loop of `_updateRecentFileActions` (lines 428-430): hide
every action whose index `ii` satisfies `ii > itEnd` (the source's
strict comparison, kept as written). -/
def applyHideLoop (itEnd : Nat) : Nat → List RAction → List RAction
  | _, [] => []
  | ii, a :: as =>
      (if ii > itEnd then { a with visible := false } else a) ::
        applyHideLoop itEnd (ii + 1) as

/-- Shallow embedding of `MainWindow._updateRecentFileActions`
(lines 414-430). -/
def updateRecentFileActions (recent : List String) (maxN : Nat)
    (actions : List RAction) : List RAction :=
  let itEnd := if recent.length ≤ maxN then recent.length else maxN
  applyHideLoop itEnd 0 (applyShowLoop recent actions)

/-- The recent-files portion of the window's UI state: the
`_recentFiles` list and the `recentFileActions` list. -/
structure RecentState where
  recentFiles : List String
  actions : List RAction
deriving DecidableEq, Repr

/-- Shallow embedding of `MainWindow._updateCurrentFile`
(lines 401-412) on the recent-files state. -/
def updateCurrentFile (maxN : Nat) (s : RecentState) (path : String) :
    RecentState :=
  let recent := recordOpened s.recentFiles maxN path
  { recentFiles := recent,
    actions := updateRecentFileActions recent maxN s.actions }

/-- The initial recent-files state built by `__init__` and
`addActions` (lines 216-218, 289-294): empty list, `maxN` fresh hidden
actions. -/
def initRecentState (maxN : Nat) : RecentState :=
  { recentFiles := [], actions := List.replicate maxN RAction.fresh }

/-- The state after a sequence of recorded file openings starting from
the initial state. -/
def runOpenings (maxN : Nat) (paths : List String) : RecentState :=
  paths.foldl (updateCurrentFile maxN) (initRecentState maxN)

/-! Helper lemmas about the store. -/

theorem Store.find_setRecord_self (st : Store) (k : String × String × String)
    (r : Record) : (st.setRecord k r).find k = r := by
  induction st with
  | nil => simp [Store.setRecord, Store.find]
  | cons e rest ih =>
      obtain ⟨k2, r2⟩ := e
      by_cases h : k2 = k
      · simp [Store.setRecord, h, Store.find]
      · simp [Store.setRecord, h, Store.find, ih]

theorem Store.find_clearAll (st : Store) (c t v : String) :
    Store.find (st.clearAll c t) (c, t, v) = Record.blank := by
  induction st with
  | nil => rfl
  | cons e rest ih =>
      obtain ⟨⟨c2, t2, v2⟩, r2⟩ := e
      by_cases hc : c2 = c ∧ t2 = t
      · simpa [Store.clearAll, hc.1, hc.2] using ih
      · have hne : ¬((c2, t2, v2) = (c, t, v)) := by
          intro h
          exact hc ⟨congrArg (fun p => p.1) h, congrArg (fun p => p.2.1) h⟩
        rcases not_and_or.mp hc with h | h
        · simpa [Store.clearAll, h, Store.find, hne] using ih
        · simpa [Store.clearAll, h, Store.find, hne] using ih

theorem Store.find_of_not_containsKey (st : Store) (k : String × String × String)
    (h : st.containsKey k = false) : st.find k = Record.blank := by
  induction st with
  | nil => rfl
  | cons e rest ih =>
      obtain ⟨k2, r2⟩ := e
      simp only [Store.containsKey, List.any_cons, Bool.or_eq_false_iff] at h
      have hne : ¬(k2 = k) := by simpa using h.1
      simpa [Store.find, hne] using ih (by simpa [Store.containsKey] using h.2)

/-- The widget produced by `readSettings` carries the stored-or-default
geometry, whatever branch the state-restoration logic takes. -/
theorem readSettings_geom (st : Store) (k : SettingsKey) (w : Widget) :
    ((readSettings st k w).1).size =
      ((st.find (k.companyName, k.toolName, k.toolVersion)).size).getD (400, 200) ∧
    ((readSettings st k w).1).pos =
      ((st.find (k.companyName, k.toolName, k.toolVersion)).pos).getD (200, 200) := by
  simp only [readSettings]
  split
  · split
    · split <;> simp [Widget.restoreStateCall, Widget.resize, Widget.move]
    · simp [Widget.resize, Widget.move]
  · simp [Widget.resize, Widget.move]

/-- Whatever the serialization branch does, `writeSettings` stores the
widget's current size and position in the group record. -/
theorem writeSettings_find_geom (st : Store) (k : SettingsKey) (w : Widget) :
    ((((writeSettings st k w).1).find
        (k.companyName, k.toolName, k.toolVersion)).size = some w.size) ∧
    ((((writeSettings st k w).1).find
        (k.companyName, k.toolName, k.toolVersion)).pos = some w.pos) := by
  simp only [writeSettings]
  split
  · split <;> simp [Store.find_setRecord_self]
  · simp [Store.find_setRecord_self]

/-! Claim theorems for the `WindowSettings` component. -/

/-- C3: if the backing store holds no record for the
`(companyName, toolName, toolVersion)` key, `readSettings()` applies the
default geometry: size (400,200) and position (200,200). -/
theorem readSettings_defaults_when_absent (st : Store) (k : SettingsKey)
    (w : Widget)
    (h : st.containsKey (k.companyName, k.toolName, k.toolVersion) = false) :
    ((readSettings st k w).1).size = (400, 200) ∧
    ((readSettings st k w).1).pos = (200, 200) := by
  obtain ⟨hs, hp⟩ := readSettings_geom st k w
  rw [hs, hp, Store.find_of_not_containsKey st _ h]
  exact ⟨rfl, rfl⟩

/-- Witness for C3 at the empty store. -/
theorem readSettings_defaults_when_absent_witness :
    (Store.containsKey [] ("XYZ-Company", "TextEditExample", "0.0.1") = false) ∧
    ((readSettings [] ⟨"XYZ-Company", "TextEditExample", "0.0.1"⟩
        ⟨(300, 100), (10, 20), true, true, .emptyDict, none, false⟩).1).size = (400, 200) ∧
    ((readSettings [] ⟨"XYZ-Company", "TextEditExample", "0.0.1"⟩
        ⟨(300, 100), (10, 20), true, true, .emptyDict, none, false⟩).1).pos = (200, 200) :=
  ⟨rfl,
    readSettings_defaults_when_absent [] ⟨"XYZ-Company", "TextEditExample", "0.0.1"⟩
      ⟨(300, 100), (10, 20), true, true, .emptyDict, none, false⟩ rfl⟩

/-- C4: for every size and position, `writeSettings()` followed by
`readSettings()` with the same `SettingsKey` applies to the window
exactly the size and position that were written. -/
theorem geometry_roundtrip (st : Store) (k : SettingsKey) (w w2 : Widget) :
    ((readSettings (writeSettings st k w).1 k w2).1).size = w.size ∧
    ((readSettings (writeSettings st k w).1 k w2).1).pos = w.pos := by
  obtain ⟨hs, hp⟩ := readSettings_geom (writeSettings st k w).1 k w2
  obtain ⟨hs2, hp2⟩ := writeSettings_find_geom st k w
  rw [hs, hp, hs2, hp2]
  exact ⟨rfl, rfl⟩

/-- C8: `clearSettings()` (after any writes) followed by `readSettings()`
with the same `SettingsKey` applies the defaults (400,200) and (200,200),
not the previously written values. -/
theorem clear_then_read_defaults (st : Store) (k : SettingsKey) (w w2 : Widget) :
    ((readSettings (clearSettings (writeSettings st k w).1 k) k w2).1).size
        = (400, 200) ∧
    ((readSettings (clearSettings (writeSettings st k w).1 k) k w2).1).pos
        = (200, 200) := by
  obtain ⟨hs, hp⟩ := readSettings_geom (clearSettings (writeSettings st k w).1 k) k w2
  rw [hs, hp]
  rw [show clearSettings (writeSettings st k w).1 k
        = Store.clearAll (writeSettings st k w).1 k.companyName k.toolName from rfl]
  rw [Store.find_clearAll]
  exact ⟨rfl, rfl⟩

/-- C9: `save()` produces the store of `writeSettings()` on the original
widget, closes the window, and returns exactly the boolean
`writeSettings()` returned. -/
theorem save_writes_then_closes (st : Store) (k : SettingsKey) (w : Widget) :
    (save st k w).1 = (writeSettings st k w).1 ∧
    (save st k w).2.1 = w.close ∧
    (save st k w).2.2 = ((writeSettings st k w).2).ok :=
  ⟨rfl, rfl, rfl⟩

/-- C2: when the widget has a `saveState` attribute and serializing its
result raises, `writeSettings()` returns false and prints the error,
while the widget's current size and position are still written to the
store; no exception propagates (the embedding is a total function
returning a report). -/
theorem writeSettings_serialize_failure (st : Store) (k : SettingsKey)
    (w : Widget)
    (hs : w.hasSaveState = true)
    (hf : pickleDumps w.saveStateResult = none) :
    (writeSettings st k w).2 = ⟨false, true⟩ ∧
    (((writeSettings st k w).1).find
        (k.companyName, k.toolName, k.toolVersion)).size = some w.size ∧
    (((writeSettings st k w).1).find
        (k.companyName, k.toolName, k.toolVersion)).pos = some w.pos := by
  refine ⟨?_, (writeSettings_find_geom st k w).1, (writeSettings_find_geom st k w).2⟩
  simp [writeSettings, hs, hf]

/-- Witness for C2 with a widget whose saveState result is unpicklable. -/
theorem writeSettings_serialize_failure_witness :
    (writeSettings [] ⟨"XYZ-Company", "TextEditExample", "0.0.1"⟩
        ⟨(300, 100), (10, 20), true, true, .unpicklable 0, none, false⟩).2
      = ⟨false, true⟩ ∧
    (((writeSettings [] ⟨"XYZ-Company", "TextEditExample", "0.0.1"⟩
        ⟨(300, 100), (10, 20), true, true, .unpicklable 0, none, false⟩).1).find
        ("XYZ-Company", "TextEditExample", "0.0.1")).size = some (300, 100) ∧
    (((writeSettings [] ⟨"XYZ-Company", "TextEditExample", "0.0.1"⟩
        ⟨(300, 100), (10, 20), true, true, .unpicklable 0, none, false⟩).1).find
        ("XYZ-Company", "TextEditExample", "0.0.1")).pos = some (10, 20) :=
  writeSettings_serialize_failure [] ⟨"XYZ-Company", "TextEditExample", "0.0.1"⟩
    ⟨(300, 100), (10, 20), true, true, .unpicklable 0, none, false⟩ rfl rfl

/-- C7: a widget without a `restoreState` attribute makes
`readSettings()` apply geometry only — the result differs from the input
widget in size and pos alone, with `restoredWith` untouched — and return
true; a widget without a `saveState` attribute makes `writeSettings()`
write geometry only — the stored record keeps its previous state
blob — and return true. -/
theorem missing_hooks_geometry_only (st : Store) (k : SettingsKey)
    (w : Widget) :
    (w.hasRestoreState = false →
      readSettings st k w =
        ({ w with
            size := ((st.find (k.companyName, k.toolName, k.toolVersion)).size).getD (400, 200),
            pos := ((st.find (k.companyName, k.toolName, k.toolVersion)).pos).getD (200, 200) },
          ⟨true, false⟩)) ∧
    (w.hasSaveState = false →
      writeSettings st k w =
        (st.setRecord (k.companyName, k.toolName, k.toolVersion)
          { st.find (k.companyName, k.toolName, k.toolVersion) with
              size := some w.size, pos := some w.pos },
          ⟨true, false⟩)) := by
  constructor
  · intro h
    simp [readSettings, Widget.resize, Widget.move, h]
  · intro h
    simp [writeSettings, h]

/-- Witness for C7: one widget lacking restoreState, one lacking
saveState. -/
theorem missing_hooks_geometry_only_witness :
    readSettings [] ⟨"XYZ-Company", "TextEditExample", "0.0.1"⟩
        ⟨(300, 100), (10, 20), false, true, .emptyDict, none, false⟩
      = (⟨(400, 200), (200, 200), false, true, .emptyDict, none, false⟩,
          ⟨true, false⟩) ∧
    writeSettings [] ⟨"XYZ-Company", "TextEditExample", "0.0.1"⟩
        ⟨(300, 100), (10, 20), true, false, .emptyDict, none, false⟩
      = ([(("XYZ-Company", "TextEditExample", "0.0.1"),
            ⟨some (300, 100), some (10, 20), none⟩)],
          ⟨true, false⟩) :=
  ⟨(missing_hooks_geometry_only [] ⟨"XYZ-Company", "TextEditExample", "0.0.1"⟩
      ⟨(300, 100), (10, 20), false, true, .emptyDict, none, false⟩).1 rfl,
   (missing_hooks_geometry_only [] ⟨"XYZ-Company", "TextEditExample", "0.0.1"⟩
      ⟨(300, 100), (10, 20), true, false, .emptyDict, none, false⟩).2 rfl⟩

/-- C10: `restore()` calls `widget.restoreState(dict())` with no hasattr
guard.  On a widget lacking the attribute it raises (modelled `none`)
with the window not closed and no settings cleared; on a widget with the
attribute it resets the state to the empty dict, closes the window and
clears the settings. -/
theorem restore_unguarded (st : Store) (k : SettingsKey) (w : Widget) :
    (w.hasRestoreState = false → restore st k w = none) ∧
    (w.hasRestoreState = true →
      restore st k w = some (clearSettings st k,
        { w with restoredWith := some .emptyDict, closed := true })) := by
  constructor
  · intro h
    simp [restore, h]
  · intro h
    simp [restore, h, Widget.restoreStateCall, Widget.close]

/-- Witness for C10: a widget without the hook raises, one with the hook
succeeds. -/
theorem restore_unguarded_witness :
    restore [] ⟨"XYZ-Company", "TextEditExample", "0.0.1"⟩
        ⟨(300, 100), (10, 20), false, true, .emptyDict, none, false⟩ = none ∧
    restore [] ⟨"XYZ-Company", "TextEditExample", "0.0.1"⟩
        ⟨(300, 100), (10, 20), true, true, .emptyDict, none, false⟩
      = some ([],
          ⟨(300, 100), (10, 20), true, true, .emptyDict, some .emptyDict, true⟩) :=
  ⟨(restore_unguarded [] ⟨"XYZ-Company", "TextEditExample", "0.0.1"⟩
      ⟨(300, 100), (10, 20), false, true, .emptyDict, none, false⟩).1 rfl,
   (restore_unguarded [] ⟨"XYZ-Company", "TextEditExample", "0.0.1"⟩
      ⟨(300, 100), (10, 20), true, true, .emptyDict, none, false⟩).2 rfl⟩

/-- C1 counterexample: the empty byte array is a stored state blob on
which `pickle.loads` raises (EOFError), yet `readSettings()` returns
true and logs nothing, because the truthiness guard skips deserialization
entirely.  This refutes the claim as stated, which demands a false
return and a logged error for every stored blob that fails to
deserialize. -/
theorem readSettings_empty_blob_counterexample :
    pickleLoads Blob.empty = none ∧
    (Store.find
        [(("XYZ-Company", "TextEditExample", "0.0.1"),
          ⟨some (5, 6), some (7, 8), some Blob.empty⟩)]
        ("XYZ-Company", "TextEditExample", "0.0.1")).state = some Blob.empty ∧
    (readSettings
        [(("XYZ-Company", "TextEditExample", "0.0.1"),
          ⟨some (5, 6), some (7, 8), some Blob.empty⟩)]
        ⟨"XYZ-Company", "TextEditExample", "0.0.1"⟩
        ⟨(300, 100), (10, 20), true, true, .emptyDict, none, false⟩).2
      = ⟨true, false⟩ := by
  refine ⟨rfl, ?_, ?_⟩ <;> decide

/-- C1 (amended): for every stored non-empty state blob on which
`pickle.loads` raises, with a widget implementing `restoreState`,
`readSettings()` returns false and prints the error, while the
stored-or-default geometry is still applied (and the widget's state is
untouched: `restoredWith` keeps its old value); no exception propagates
(the embedding is a total function). -/
theorem readSettings_deserialize_failure (st : Store) (k : SettingsKey)
    (w : Widget) (b : Blob)
    (hr : w.hasRestoreState = true)
    (hb : (st.find (k.companyName, k.toolName, k.toolVersion)).state = some b)
    (ht : b.truthy = true)
    (hf : pickleLoads b = none) :
    readSettings st k w =
      ({ w with
          size := ((st.find (k.companyName, k.toolName, k.toolVersion)).size).getD (400, 200),
          pos := ((st.find (k.companyName, k.toolName, k.toolVersion)).pos).getD (200, 200) },
        ⟨false, true⟩) := by
  simp [readSettings, Widget.resize, Widget.move, hr, hb, ht, hf]

/-- Witness for the amended C1 with a corrupt stored blob. -/
theorem readSettings_deserialize_failure_witness :
    readSettings
        [(("XYZ-Company", "TextEditExample", "0.0.1"),
          ⟨some (5, 6), some (7, 8), some (Blob.corrupt 0)⟩)]
        ⟨"XYZ-Company", "TextEditExample", "0.0.1"⟩
        ⟨(300, 100), (10, 20), true, true, .emptyDict, none, false⟩
      = (⟨(5, 6), (7, 8), true, true, .emptyDict, none, false⟩,
          ⟨false, true⟩) :=
  readSettings_deserialize_failure
    [(("XYZ-Company", "TextEditExample", "0.0.1"),
      ⟨some (5, 6), some (7, 8), some (Blob.corrupt 0)⟩)]
    ⟨"XYZ-Company", "TextEditExample", "0.0.1"⟩
    ⟨(300, 100), (10, 20), true, true, .emptyDict, none, false⟩
    (Blob.corrupt 0) rfl (by decide) rfl rfl

/-- C5: `recordOpened` puts the opened path at the front, the rest of
the result is the old list purged of every occurrence of that path
(truncated to fit the bound), so the path never appears twice, and the
result never exceeds the maximum; in particular P, then P again, then Q
with max 4 yields [Q, P], and five distinct paths with max 4 retain
exactly the four most recently inserted, most-recent first. -/
theorem recordOpened_mru (l : List String) (m : Nat) (p : String)
    (hm : 1 ≤ m) :
    (recordOpened l m p).head? = some p ∧
    (recordOpened l m p).tail = (l.filter (fun q => q ≠ p)).take (m - 1) ∧
    p ∉ (recordOpened l m p).tail ∧
    (recordOpened l m p).length ≤ m ∧
    recordOpened (recordOpened (recordOpened [] 4 "P") 4 "P") 4 "Q" = ["Q", "P"] ∧
    (∀ p1 p2 p3 p4 p5 : String, ([p1, p2, p3, p4, p5] : List String).Nodup →
      List.foldl (fun acc q => recordOpened acc 4 q) [] [p1, p2, p3, p4, p5]
        = [p5, p4, p3, p2]) := by
  have hmem : p ∉ l.filter (fun q => q ≠ p) := by
    intro hp
    exact (by simpa using (List.mem_filter.mp hp).2)
  obtain ⟨m2, rfl⟩ : ∃ m2, m = m2 + 1 := ⟨m - 1, by omega⟩
  have heq : recordOpened l (m2 + 1) p
      = p :: (l.filter (fun q => q ≠ p)).take m2 := by
    simp only [recordOpened]
    split
    · rw [List.take_succ_cons]
    · rename_i h
      rw [List.take_of_length_le]
      simp only [List.length_cons, Nat.not_lt] at h
      omega
  refine ⟨?_, ?_, ?_, ?_, by decide, ?_⟩
  · rw [heq]
    rfl
  · rw [heq]
    simp
  · rw [heq]
    intro hp
    exact hmem ((List.take_sublist m2 _).mem (by simpa using hp))
  · rw [heq]
    have := List.length_take_le m2 (l.filter (fun q => q ≠ p))
    simp only [List.length_cons]
    omega
  · intro p1 p2 p3 p4 p5 hnd
    simp only [List.nodup_cons, List.mem_cons, List.mem_singleton,
      List.not_mem_nil, or_false, not_or] at hnd
    obtain ⟨⟨h12, h13, h14, h15⟩, ⟨h23, h24, h25⟩, ⟨h34, h35⟩, h45, -⟩ := hnd
    simp [recordOpened, List.filter, h12, h13, h14, h15, h23, h24, h25,
      h34, h35, h45, Ne.symm]

/-- Witness for C5: head of a concrete insertion, and the
five-distinct-paths scenario at concrete paths. -/
theorem recordOpened_mru_witness :
    (recordOpened ["a", "P"] 4 "P").head? = some "P" ∧
    List.foldl (fun acc q => recordOpened acc 4 q) [] ["a", "b", "c", "d", "e"]
      = ["e", "d", "c", "b"] :=
  ⟨(recordOpened_mru ["a", "P"] 4 "P" (by decide)).1,
   (recordOpened_mru [] 4 "x" (by decide)).2.2.2.2.2 "a" "b" "c" "d" "e"
     (by decide)⟩

/-! Helper lemmas for the recent-file action loops. -/

theorem length_applyShowLoop (fs : List String) (as : List RAction) :
    (applyShowLoop fs as).length = as.length := by
  induction fs generalizing as with
  | nil => cases as <;> rfl
  | cons f fs ih =>
      cases as with
      | nil => rfl
      | cons a as => simp [applyShowLoop, ih]

theorem getElem?_applyShowLoop_lt (fs : List String) (as : List RAction)
    (i : Nat) (f : String) (hf : fs[i]? = some f) (hi : i < as.length) :
    (applyShowLoop fs as)[i]? = some ⟨basename f, some f, true⟩ := by
  induction fs generalizing as i with
  | nil => simp at hf
  | cons g fs ih =>
      cases as with
      | nil => simp at hi
      | cons a as =>
          cases i with
          | zero =>
              simp only [List.getElem?_cons_zero, Option.some.injEq] at hf
              subst hf
              simp [applyShowLoop]
          | succ i =>
              simp only [List.getElem?_cons_succ] at hf
              simp only [applyShowLoop, List.getElem?_cons_succ]
              exact ih as i hf (by simpa using Nat.lt_of_succ_lt_succ hi)

theorem getElem?_applyShowLoop_ge (fs : List String) (as : List RAction)
    (i : Nat) (hi : fs.length ≤ i) :
    (applyShowLoop fs as)[i]? = as[i]? := by
  induction fs generalizing as i with
  | nil => cases as <;> rfl
  | cons g fs ih =>
      cases as with
      | nil => simp [applyShowLoop]
      | cons a as =>
          cases i with
          | zero => simp at hi
          | succ i =>
              simp only [applyShowLoop, List.getElem?_cons_succ]
              exact ih as i (by simpa using Nat.le_of_succ_le_succ hi)

theorem length_applyHideLoop (itEnd k : Nat) (as : List RAction) :
    (applyHideLoop itEnd k as).length = as.length := by
  induction as generalizing k with
  | nil => rfl
  | cons a as ih => simp [applyHideLoop, ih]

theorem getElem?_applyHideLoop (itEnd k : Nat) (as : List RAction) (i : Nat) :
    (applyHideLoop itEnd k as)[i]?
      = (as[i]?).map
          (fun a => if k + i > itEnd then { a with visible := false } else a) := by
  induction as generalizing k i with
  | nil => rfl
  | cons a as ih =>
      cases i with
      | zero => simp [applyHideLoop]
      | succ i =>
          simp only [applyHideLoop, List.getElem?_cons_succ]
          rw [ih (k + 1) i]
          have h : k + 1 + i = k + (i + 1) := by omega
          rw [h]

/-! Helper lemmas about `recordOpened`. -/

theorem recordOpened_eq_take (l : List String) (m : Nat) (p : String) :
    recordOpened l m p = (p :: l.filter (fun q => q ≠ p)).take m := by
  simp only [recordOpened]
  split
  · rfl
  · rename_i h
    rw [List.take_of_length_le (Nat.le_of_not_lt h)]

theorem length_recordOpened_le (l : List String) (m : Nat) (p : String) :
    (recordOpened l m p).length ≤ m := by
  rw [recordOpened_eq_take]
  simp [List.length_take]

theorem nodup_recordOpened (l : List String) (m : Nat) (p : String)
    (h : l.Nodup) : (recordOpened l m p).Nodup := by
  rw [recordOpened_eq_take]
  refine (List.take_sublist _ _).nodup (List.nodup_cons.mpr ⟨?_, h.filter _⟩)
  intro hp
  exact (by simpa using (List.mem_filter.mp hp).2)

theorem length_le_filter_ne_add_count (l : List String) (p : String) :
    l.length ≤ (l.filter (fun q => q ≠ p)).length + l.count p := by
  induction l with
  | nil => simp
  | cons a l ih =>
      by_cases h : a = p
      · have hf : List.filter (fun q => q ≠ p) (a :: l)
            = List.filter (fun q => q ≠ p) l := by
          simp [List.filter_cons, h]
        have hc : List.count p (a :: l) = List.count p l + 1 := by
          simp [List.count_cons, h]
        rw [List.length_cons, hf, hc]
        omega
      · have hf : List.filter (fun q => q ≠ p) (a :: l)
            = a :: List.filter (fun q => q ≠ p) l := by
          simp [List.filter_cons, h]
        have hc : List.count p (a :: l) = List.count p l := by
          simp [List.count_cons, Ne.symm h]
        rw [List.length_cons, hf, hc, List.length_cons]
        omega

theorem length_le_recordOpened (l : List String) (m : Nat) (p : String)
    (hn : l.Nodup) (hl : l.length ≤ m) :
    l.length ≤ (recordOpened l m p).length := by
  rw [recordOpened_eq_take]
  have h1 := length_le_filter_ne_add_count l p
  have h2 : l.count p ≤ 1 := List.nodup_iff_count_le_one.mp hn p
  simp only [List.length_take, List.length_cons]
  omega

/-- Invariant of the recent-files UI state: four actions, a bounded
duplicate-free list, the first `recentFiles.length` actions visible and
labelled with the corresponding entries, every later action hidden. -/
def RecentInv (s : RecentState) : Prop :=
  s.actions.length = 4 ∧
  s.recentFiles.length ≤ 4 ∧
  s.recentFiles.Nodup ∧
  (∀ (i : Nat) (f : String), s.recentFiles[i]? = some f →
      s.actions[i]? = some (RAction.mk (basename f) (some f) true)) ∧
  (∀ (i : Nat) (a : RAction), s.recentFiles.length ≤ i → s.actions[i]? = some a →
      a.visible = false)

theorem recentInv_initial : RecentInv (initRecentState 4) := by
  refine ⟨rfl, by simp [initRecentState], by simp [initRecentState], ?_, ?_⟩
  · intro i f hf
    simp [initRecentState] at hf
  · intro i a _ ha
    simp only [initRecentState, List.getElem?_replicate] at ha
    split at ha
    · cases ha
      rfl
    · cases ha

theorem recentInv_preserved (s : RecentState) (p : String)
    (h : RecentInv s) : RecentInv (updateCurrentFile 4 s p) := by
  obtain ⟨hA, hL, hN, hShow, hHide⟩ := h
  have hRlen : (recordOpened s.recentFiles 4 p).length ≤ 4 :=
    length_recordOpened_le _ _ _
  have hRmono : s.recentFiles.length ≤ (recordOpened s.recentFiles 4 p).length :=
    length_le_recordOpened _ _ _ hN hL
  have hRnodup := nodup_recordOpened s.recentFiles 4 p hN
  simp only [updateCurrentFile, updateRecentFileActions, RecentInv]
  rw [if_pos hRlen]
  refine ⟨?_, hRlen, hRnodup, ?_, ?_⟩
  · rw [length_applyHideLoop, length_applyShowLoop, hA]
  · intro i f hf
    have hiR : i < (recordOpened s.recentFiles 4 p).length := by
      rcases List.getElem?_eq_some_iff.mp hf with ⟨h', -⟩
      exact h'
    rw [getElem?_applyHideLoop,
      getElem?_applyShowLoop_lt _ s.actions i f hf (by omega)]
    simp only [Option.map_some']
    rw [if_neg (by omega)]
  · intro i a hi ha
    rw [getElem?_applyHideLoop,
      getElem?_applyShowLoop_ge _ s.actions i hi] at ha
    rcases Option.map_eq_some'.mp ha with ⟨a0, ha0, rfl⟩
    by_cases hgt : 0 + i > (recordOpened s.recentFiles 4 p).length
    · rw [if_pos hgt]
    · rw [if_neg hgt]
      exact hHide i a0 (by omega) ha0

theorem recentInv_run (paths : List String) :
    RecentInv (runOpenings 4 paths) := by
  suffices h : ∀ s, RecentInv s →
      RecentInv (List.foldl (updateCurrentFile 4) s paths) by
    exact h _ recentInv_initial
  induction paths with
  | nil => exact fun s hs => hs
  | cons q qs ih => exact fun s hs => ih _ (recentInv_preserved s q hs)

/-- C6: in every state reachable by a sequence of recorded file openings
from the initial all-hidden state, each of the first
`recentFiles.length` actions is visible and shows the corresponding
entry (basename as text, full path as data), and every action at an
index at or beyond the list length is invisible. -/
theorem recentActions_reflect_list (paths : List String) :
    (∀ (i : Nat) (f : String), (runOpenings 4 paths).recentFiles[i]? = some f →
        (runOpenings 4 paths).actions[i]?
          = some (RAction.mk (basename f) (some f) true)) ∧
    (∀ (i : Nat) (a : RAction), (runOpenings 4 paths).recentFiles.length ≤ i →
        (runOpenings 4 paths).actions[i]? = some a → a.visible = false) :=
  ⟨(recentInv_run paths).2.2.2.1, (recentInv_run paths).2.2.2.2⟩

/-- Witness for C6 after opening "a" then "b": action 0 shows "b" and is
visible; action 3, beyond the list, is the fresh hidden action. -/
theorem recentActions_reflect_list_witness :
    (runOpenings 4 ["a", "b"]).actions[0]?
        = some (RAction.mk (basename "b") (some "b") true) ∧
    RAction.fresh.visible = false :=
  ⟨(recentActions_reflect_list ["a", "b"]).1 0 "b" (by decide),
   (recentActions_reflect_list ["a", "b"]).2 3 RAction.fresh (by decide)
     (by decide)⟩

end TextEditorExample
